import Mathlib

/-!
Shallow embedding of the result-typed fetch layer of the repository
(`src/app/lib/api.ts` and `src/app/lib/errorWrapper.ts` together with the
tagged error classes of `src/app/lib/errors.ts`), and proofs of the spec's
claims about it.

Modelling conventions:
* JavaScript exceptions are values of `JSException`; a computation that may
  throw is an `Except JSException` value.  `Result.tryPromise` from the
  `better-result` library catches every exception of its `try` block and maps
  it through its `catch` function.
* The underlying `fetch` builtin is a parameter `env : FetchEnv`: for a URL
  and an optional `RequestInit` it either yields a `Response` or throws.
* A `Response` carries its status line, its headers, and the outcome of its
  `json()` and `blob()` body readers (which may themselves throw).
* JavaScript objects of string fields (header records) are association lists
  with object-literal semantics: a later assignment to the same key replaces
  the value; `Headers.get` is case-insensitive and joins duplicate
  (case-insensitively equal) names with ", ".
* `JSON.stringify` is modelled on a tree of JSON values; string escaping is
  elided as no claim depends on it.
-/

set_option autoImplicit false

namespace SafeApi

/-- A JSON value, the model of the generic payload type `T` of the wrappers
and of a JSON-serializable request body `B`. -/
inductive Json where
  | null : Json
  | bool (b : Bool) : Json
  | num (n : Int) : Json
  | str (s : String) : Json
  | arr (elems : List Json) : Json
  | obj (fields : List (String × Json)) : Json
deriving Repr

/-- The double-quote character. -/
def dq : Char := Char.ofNat 34

/-- The single-quote character. -/
def sq : Char := Char.ofNat 39

/-- The newline character. -/
def nl : Char := Char.ofNat 10

mutual

/-- `JSON.stringify` on a JSON value tree (string escaping elided). -/
def stringify : Json → String
  | .null => "null"
  | .bool true => "true"
  | .bool false => "false"
  | .num n => toString n
  | .str s => String.mk (dq :: (s.data ++ [dq]))
  | .arr elems => "[" ++ stringifyList elems ++ "]"
  | .obj fields => "\x7b" ++ stringifyFields fields ++ "\x7d"

/-- Comma-separated serialization of a list of JSON values. -/
def stringifyList : List Json → String
  | [] => ""
  | [j] => stringify j
  | j :: rest => stringify j ++ "," ++ stringifyList rest

/-- Comma-separated serialization of the fields of a JSON object. -/
def stringifyFields : List (String × Json) → String
  | [] => ""
  | [(k, j)] => String.mk (dq :: (k.data ++ [dq])) ++ ":" ++ stringify j
  | (k, j) :: rest =>
      String.mk (dq :: (k.data ++ [dq])) ++ ":" ++ stringify j ++ "," ++
        stringifyFields rest

end

/-- The data carried by an `ApiError` instance (`errors.ts`): the fields of
the tagged class, with `message` computed by its constructor. -/
structure ApiErrorData where
  status : Nat
  statusText : String
  url : String
  message : String
deriving Repr, DecidableEq

/-- The `ApiError` constructor of `errors.ts`: stores the given fields and a
pre-formatted `message`. -/
def ApiError.make (status : Nat) (statusText : String) (url : String) :
    ApiErrorData :=
  { status := status, statusText := statusText, url := url,
    message := s!"API request failed: {status} {statusText} ({url})" }

/-- A JavaScript exception value: the repository's own `ApiError` class, the
builtin `TypeError` and `SyntaxError` classes, any other `Error` instance, or
a thrown non-`Error` value (JavaScript can throw anything); for the last we
keep only its `String(...)` rendering. -/
inductive JSException where
  | apiExn (e : ApiErrorData) : JSException
  | typeError (message : String) : JSException
  | syntaxError (message : String) : JSException
  | errorExn (message : String) : JSException
  | nonError (stringRep : String) : JSException
deriving Repr, DecidableEq

/-- `cause instanceof Error ? cause.message : String(cause)`, the rendering of
a caught value used by the `NetworkError` and `ParseError` constructors. -/
def JSException.toMessage : JSException → String
  | .apiExn e => e.message
  | .typeError m => m
  | .syntaxError m => m
  | .errorExn m => m
  | .nonError s => s

/-- The `FetchError` union of `errors.ts`: three tagged error variants. -/
inductive FetchError where
  | apiError (e : ApiErrorData) : FetchError
  | networkError (url : String) (cause : JSException) (message : String) :
      FetchError
  | parseError (cause : JSException) (message : String) : FetchError
deriving Repr, DecidableEq

/-- The `_tag` discriminant of a `FetchError` (the `TaggedError` name). -/
def FetchError.tag : FetchError → String
  | .apiError _ => "ApiError"
  | .networkError _ _ _ => "NetworkError"
  | .parseError _ _ => "ParseError"

/-- The `NetworkError` constructor of `errors.ts`: stores `url` and `cause`
and a pre-formatted `message`. -/
def NetworkError.make (url : String) (cause : JSException) : FetchError :=
  FetchError.networkError url cause
    (s!"Network error fetching {url}: " ++ cause.toMessage)

/-- The `ParseError` constructor of `errors.ts`: stores `cause` and a
pre-formatted `message`. -/
def ParseError.make (cause : JSException) : FetchError :=
  FetchError.parseError cause
    ("Failed to parse response: " ++ cause.toMessage)

/-- The `Result` type of the `better-result` library: success or failure. -/
inductive Result (α : Type) (ε : Type) where
  | ok (value : α) : Result α ε
  | err (error : ε) : Result α ε
deriving Repr, DecidableEq

/-- `result.isErr()`. -/
def Result.isErr {α ε : Type} : Result α ε → Bool
  | .ok _ => false
  | .err _ => true

/-- `Result.tryPromise({try, catch})`: if the `try` block completes, wrap its
value in a success; if it throws, map the exception through `catch` into a
failure.  No exception escapes. -/
def Result.tryPromise {α ε : Type} (tryFn : Except JSException α)
    (catchFn : JSException → ε) : Result α ε :=
  match tryFn with
  | .ok v => .ok v
  | .error e => .err (catchFn e)

/-- The discriminant of the error of a failed `Result`, `none` on success. -/
def errTag {α : Type} : Result α FetchError → Option String
  | .ok _ => none
  | .err e => some e.tag

/-- A binary response body. -/
structure Blob where
  bytes : List Nat
deriving Repr, DecidableEq

/-- A request or response body: a string (from `JSON.stringify`) or a
multipart `FormData` value. -/
structure FormData where
  entries : List (String × String)
deriving Repr, DecidableEq

/-- The `body` field of a `RequestInit`. -/
inductive BodyV where
  | str (s : String) : BodyV
  | form (fd : FormData) : BodyV
deriving Repr, DecidableEq

/-- An HTTP response handle: status line, headers, and the outcomes of its
`json()` and `blob()` readers (each of which may throw). -/
structure Response where
  status : Nat
  statusText : String
  headers : List (String × String)
  jsonResult : Except JSException Json
  blobResult : Except JSException Blob

/-- `response.ok`: status in [200, 299]. -/
def respOk (r : Response) : Bool :=
  Nat.ble 200 r.status && Nat.ble r.status 299

/-- Lower-casing of a header name, character by character. -/
def lowerStr (s : String) : String := String.mk (s.data.map Char.toLower)

/-- Case-insensitive header-name equality. -/
def lowerEq (a b : String) : Bool := lowerStr a == lowerStr b

/-- `Headers.get(name)`: `none` when no (case-insensitively) matching entry
exists, else the matching values joined with ", ". -/
def headersGet (hs : List (String × String)) (nm : String) : Option String :=
  match hs.filter (fun p => lowerEq p.1 nm) with
  | [] => none
  | q :: qs => some (String.intercalate ", " ((q :: qs).map Prod.snd))

/-- The value the key `k` ends with after spreading the object `extra` (the
last assignment to `k` in `extra` wins), `none` when `extra` never assigns
`k`.  Object keys are compared case-sensitively. -/
def lastVal : List (String × String) → String → Option String
  | [], _ => none
  | p :: ps, k =>
      match lastVal ps k with
      | some v => some v
      | none => if p.1 == k then some p.2 else none

/-- JavaScript object-spread `{...base, ...extra}` on string records: keys of
`base` keep their position but a later assignment in `extra` replaces the
value; keys only in `extra` are appended. -/
def objSpread (base extra : List (String × String)) :
    List (String × String) :=
  base.map (fun p =>
    match lastVal extra p.1 with
    | some v => (p.1, v)
    | none => p) ++
  extra.filter (fun q => base.all (fun p => !(p.1 == q.1)))

/-- The `RequestInit` fields the fetch layer reads or writes; every other
field (`cache`, `credentials`, `mode`, ...) is opaque to this layer and kept
abstract in `rest`. -/
structure OtherInit where
  cache : Option String := none
  credentials : Option String := none
  mode : Option String := none
  signal : Option Nat := none
deriving Repr, DecidableEq

/-- A `RequestInit`. -/
structure RequestInit where
  method : Option String := none
  headers : Option (List (String × String)) := none
  body : Option BodyV := none
  rest : OtherInit := {}
deriving Repr, DecidableEq

/-- `Omit<RequestInit, "method" | "body">`, the options of the POST/PUT/PATCH
and POST-download wrappers. -/
structure RequestOpts where
  headers : Option (List (String × String)) := none
  rest : OtherInit := {}
deriving Repr, DecidableEq

/-- `Omit<RequestInit, "method">`, the options of `safeDelete`. -/
structure DeleteOpts where
  headers : Option (List (String × String)) := none
  body : Option BodyV := none
  rest : OtherInit := {}
deriving Repr, DecidableEq

/-- `Omit<RequestInit, "method" | "body" | "headers">`, the options of
`safePostUpload`: the type excludes a headers field. -/
structure UploadOpts where
  rest : OtherInit := {}
deriving Repr, DecidableEq

/-- `options?.headers` spread into an object literal: an absent options
object or absent headers field contributes nothing. -/
def optHeaders (options : Option RequestOpts) : List (String × String) :=
  match options with
  | none => []
  | some o =>
      match o.headers with
      | none => []
      | some hs => hs

/-- The opaque remainder `...options` contributes to the built init. -/
def optRest (options : Option RequestOpts) : OtherInit :=
  match options with
  | none => {}
  | some o => o.rest

/-- The outcome of the `fetch` builtin: a response, or a thrown exception
(transport failure, abort, or anything else the host throws). -/
inductive FetchOutcome where
  | success (r : Response) : FetchOutcome
  | throws (e : JSException) : FetchOutcome

/-- The `fetch` builtin as an environment parameter. -/
def FetchEnv : Type := String → Option RequestInit → FetchOutcome

/-! The `safeRequest` primitive (api.ts lines 12-40). -/

/-- The `try` block of `safeRequest`: await `fetch`; on a non-ok status throw
`new ApiError({status, statusText, url})`; else return the response. -/
def reqTry (env : FetchEnv) (url : String) (options : Option RequestInit) :
    Except JSException Response :=
  match env url options with
  | .throws e => .error e
  | .success response =>
      if respOk response then .ok response
      else .error (.apiExn
        (ApiError.make response.status response.statusText url))

/-- The `catch` block of `safeRequest`: an `ApiError` instance is returned as
is; a `TypeError` whose message contains "fetch" becomes
`NetworkError{url, cause}`, and so does every other value (the two branches
of the source construct the same `new NetworkError({url, cause: error})`). -/
def reqCatch (url : String) (error : JSException) : FetchError :=
  match error with
  | .apiExn e => .apiError e
  | _ => NetworkError.make url error

/-- `safeRequest` (api.ts 12-40): one `Result.tryPromise` around the fetch
and the ok-status check. -/
def safeRequest (env : FetchEnv) (url : String)
    (options : Option RequestInit) : Result Response FetchError :=
  Result.tryPromise (reqTry env url options) (reqCatch url)

/-- `safeRequest` with the exception channel made explicit: an escaping
exception would surface as `Except.error`. -/
def safeRequestX (env : FetchEnv) (url : String)
    (options : Option RequestInit) :
    Except JSException (Result Response FetchError) :=
  .ok (Result.tryPromise (reqTry env url options) (reqCatch url))

/-! The `safeFetch` JSON decode wrapper (api.ts lines 46-65). -/

/-- The `catch` block of `safeFetch`'s decode step: a `SyntaxError` becomes
`ParseError{cause}`, anything else `NetworkError{url, cause}`. -/
def fetchCatch (url : String) (error : JSException) : FetchError :=
  match error with
  | .syntaxError _ => ParseError.make error
  | _ => NetworkError.make url error

/-- `safeFetch` (api.ts 46-65): call `safeRequest`, propagate its failure
unchanged, else decode the body with `response.json()` under
`Result.tryPromise`. -/
def safeFetch (env : FetchEnv) (url : String)
    (options : Option RequestInit) : Result Json FetchError :=
  match safeRequest env url options with
  | .err e => .err e
  | .ok response => Result.tryPromise response.jsonResult (fetchCatch url)

/-- `safeFetch` with the exception channel made explicit. -/
def safeFetchX (env : FetchEnv) (url : String)
    (options : Option RequestInit) :
    Except JSException (Result Json FetchError) := do
  let responseResult ← safeRequestX env url options
  match responseResult with
  | .err e => return .err e
  | .ok response =>
      return Result.tryPromise response.jsonResult (fetchCatch url)

/-! The JSON-body method wrappers (api.ts lines 71-136). -/

/-- The headers record `{"Content-Type": "application/json"}`. -/
def jsonCT : List (String × String) := [("Content-Type", "application/json")]

/-- The headers object built by the POST/PUT/PATCH wrappers:
`{"Content-Type": "application/json", ...options?.headers}`. -/
def jsonBodyHeaders (options : Option RequestOpts) :
    List (String × String) :=
  objSpread jsonCT (optHeaders options)

/-- The `RequestInit` a JSON-body wrapper passes to `safeFetch`:
`{...options, method, headers: {"Content-Type": ..., ...options?.headers},
body: JSON.stringify(body)}`. -/
def jsonBodyInit (method : String) (body : Json)
    (options : Option RequestOpts) : RequestInit :=
  { method := some method,
    headers := some (jsonBodyHeaders options),
    body := some (.str (stringify body)),
    rest := optRest options }

/-- `safePost` (api.ts 71-85). -/
def safePost (env : FetchEnv) (url : String) (body : Json)
    (options : Option RequestOpts) : Result Json FetchError :=
  safeFetch env url (some (jsonBodyInit "POST" body options))

/-- `safePut` (api.ts 90-104). -/
def safePut (env : FetchEnv) (url : String) (body : Json)
    (options : Option RequestOpts) : Result Json FetchError :=
  safeFetch env url (some (jsonBodyInit "PUT" body options))

/-- `safePatch` (api.ts 109-123). -/
def safePatch (env : FetchEnv) (url : String) (body : Json)
    (options : Option RequestOpts) : Result Json FetchError :=
  safeFetch env url (some (jsonBodyInit "PATCH" body options))

/-- `safePost` with the exception channel made explicit. -/
def safePostX (env : FetchEnv) (url : String) (body : Json)
    (options : Option RequestOpts) :
    Except JSException (Result Json FetchError) :=
  safeFetchX env url (some (jsonBodyInit "POST" body options))

/-- `safePut` with the exception channel made explicit. -/
def safePutX (env : FetchEnv) (url : String) (body : Json)
    (options : Option RequestOpts) :
    Except JSException (Result Json FetchError) :=
  safeFetchX env url (some (jsonBodyInit "PUT" body options))

/-- `safePatch` with the exception channel made explicit. -/
def safePatchX (env : FetchEnv) (url : String) (body : Json)
    (options : Option RequestOpts) :
    Except JSException (Result Json FetchError) :=
  safeFetchX env url (some (jsonBodyInit "PATCH" body options))

/-- The `RequestInit` `safeDelete` passes on: `{...options, method:
"DELETE"}` with the caller's headers and body untouched. -/
def deleteInit (options : Option DeleteOpts) : RequestInit :=
  match options with
  | none => { method := some "DELETE" }
  | some o =>
      { method := some "DELETE", headers := o.headers, body := o.body,
        rest := o.rest }

/-- `safeDelete` (api.ts 128-136). -/
def safeDelete (env : FetchEnv) (url : String)
    (options : Option DeleteOpts) : Result Json FetchError :=
  safeFetch env url (some (deleteInit options))

/-- `safeDelete` with the exception channel made explicit. -/
def safeDeleteX (env : FetchEnv) (url : String)
    (options : Option DeleteOpts) :
    Except JSException (Result Json FetchError) :=
  safeFetchX env url (some (deleteInit options))

/-- The `RequestInit` `safePostUpload` passes on: `{...options, method:
"POST", body: formData}`; the options type has no headers field and the
wrapper sets none. -/
def uploadInit (formData : FormData) (options : Option UploadOpts) :
    RequestInit :=
  { method := some "POST", body := some (.form formData),
    rest := match options with | none => {} | some o => o.rest }

/-- `safePostUpload` (api.ts 142-152). -/
def safePostUpload (env : FetchEnv) (url : String) (formData : FormData)
    (options : Option UploadOpts) : Result Json FetchError :=
  safeFetch env url (some (uploadInit formData options))

/-- `safePostUpload` with the exception channel made explicit. -/
def safePostUploadX (env : FetchEnv) (url : String) (formData : FormData)
    (options : Option UploadOpts) :
    Except JSException (Result Json FetchError) :=
  safeFetchX env url (some (uploadInit formData options))

/-! The `extractFilename` helper (api.ts lines 166-174).

The regular expression `/filename[^;=\n]*=((['"]).*?\2|[^;\n]*)/` is given
its JavaScript backtracking semantics specialised to this pattern:
* the pattern is tried at each start position, leftmost match wins;
* after the literal `filename`, the greedy class `[^;=\n]*` consumes the
  maximal run; since `=` is excluded from the class, no shorter run can be
  followed by the required `=`, so the run must be followed by a literal `=`;
* group 1 first tries a quote character, a lazy `.*?` (which cannot cross a
  newline), and the same closing quote; if no closing quote is reachable, it
  falls back to the greedy `[^;\n]*`, which always succeeds (possibly
  empty). -/

/-- Membership in the character class `[^;=\n]`. -/
def notIn1 (c : Char) : Bool := !(c == ';' || c == '=' || c == nl)

/-- Membership in the character class `[^;\n]`. -/
def notIn2 (c : Char) : Bool := !(c == ';' || c == nl)

/-- Is `c` one of the quote characters of the class `['"]`? -/
def isQuoteCh (c : Char) : Bool := c == dq || c == sq

/-- Split a list into its maximal prefix of characters satisfying `p` and
the remainder. -/
def takeRun (p : Char → Bool) : List Char → List Char × List Char
  | [] => ([], [])
  | c :: cs =>
      if p c then
        let r := takeRun p cs
        (c :: r.1, r.2)
      else ([], c :: cs)

/-- Lazy `.*?` followed by the closing quote `q`: the shortest newline-free
prefix ending just before an occurrence of `q`; `none` when no closing `q`
is reachable. -/
def lazyClose (q : Char) : List Char → Option (List Char × List Char)
  | [] => none
  | c :: cs =>
      if c == q then some ([], cs)
      else if c == nl then none
      else
        match lazyClose q cs with
        | some (t, rest) => some (c :: t, rest)
        | none => none

/-- Group 1 of the pattern, matched at the position right after the `=`:
quoted branch first (the capture includes both quotes), greedy `[^;\n]*`
otherwise.  The greedy branch always succeeds, so the group as a whole
always matches. -/
def captureGroup (s : List Char) : List Char :=
  match s with
  | [] => []
  | c :: cs =>
      if isQuoteCh c then
        match lazyClose c cs with
        | some (t, _) => c :: (t ++ [c])
        | none => (takeRun notIn2 (c :: cs)).1
      else (takeRun notIn2 (c :: cs)).1

/-- Try the part of the pattern after the literal `filename`: the greedy
`[^;=\n]*` run must be followed by `=`; on success return group 1. -/
def matchAfterFilename (s : List Char) : Option (List Char) :=
  match (takeRun notIn1 s).2 with
  | [] => none
  | c :: rest => if c == '=' then some (captureGroup rest) else none

/-- The characters of the literal `filename`. -/
def filenameLit : List Char := "filename".data

/-- `String.prototype.match` with the filename pattern: try each start
position from the left; at a position the literal `filename` must match and
`matchAfterFilename` decides the rest; on failure move one character
right. -/
def findFilenameMatch : List Char → Option (List Char)
  | [] => none
  | c :: cs =>
      if (c :: cs).take 8 == filenameLit then
        match matchAfterFilename ((c :: cs).drop 8) with
        | some g => some g
        | none => findFilenameMatch cs
      else findFilenameMatch cs

/-- `match[1].replace(/['"]/g, "")`: delete every quote character. -/
def stripQuotes (s : List Char) : List Char :=
  s.filter (fun c => !(isQuoteCh c))

/-- `extractFilename` (api.ts 166-174): `null` for an absent (or empty,
hence falsy) header; else run the pattern; a match with a non-empty group 1
yields the group with all quotes removed, anything else yields `null`. -/
def extractFilename (contentDisposition : Option String) : Option String :=
  match contentDisposition with
  | none => none
  | some cd =>
      match findFilenameMatch cd.data with
      | none => none
      | some g => if g.isEmpty then none else some (String.mk (stripQuotes g))

/-! The download wrappers (api.ts lines 157-238). -/

/-- `DownloadResult` (api.ts 157-161). -/
structure DownloadResult where
  blob : Blob
  filename : Option String
  contentType : Option String
deriving Repr, DecidableEq

/-- `responseToDownloadResult` (api.ts 179-189): await `response.blob()`
(which may throw), then read the two headers. -/
def downloadTry (response : Response) : Except JSException DownloadResult :=
  match response.blobResult with
  | .error e => .error e
  | .ok blob =>
      .ok { blob := blob,
            filename := extractFilename
              (headersGet response.headers "Content-Disposition"),
            contentType := headersGet response.headers "Content-Type" }

/-- The `catch` block of both download wrappers: every exception becomes
`NetworkError{url, cause}`. -/
def downloadCatch (url : String) (error : JSException) : FetchError :=
  NetworkError.make url error

/-- `safeDownload` (api.ts 195-209): call `safeRequest`, propagate its
failure unchanged, else convert the response under `Result.tryPromise`. -/
def safeDownload (env : FetchEnv) (url : String)
    (options : Option RequestInit) : Result DownloadResult FetchError :=
  match safeRequest env url options with
  | .err e => .err e
  | .ok response =>
      Result.tryPromise (downloadTry response) (downloadCatch url)

/-- `safeDownload` with the exception channel made explicit. -/
def safeDownloadX (env : FetchEnv) (url : String)
    (options : Option RequestInit) :
    Except JSException (Result DownloadResult FetchError) := do
  let responseResult ← safeRequestX env url options
  match responseResult with
  | .err e => return .err e
  | .ok response =>
      return Result.tryPromise (downloadTry response) (downloadCatch url)

/-- `safePostDownload` (api.ts 215-238): like `safeDownload` but the request
is built exactly as in the JSON-body wrappers with method POST. -/
def safePostDownload (env : FetchEnv) (url : String) (body : Json)
    (options : Option RequestOpts) : Result DownloadResult FetchError :=
  match safeRequest env url (some (jsonBodyInit "POST" body options)) with
  | .err e => .err e
  | .ok response =>
      Result.tryPromise (downloadTry response) (downloadCatch url)

/-- `safePostDownload` with the exception channel made explicit. -/
def safePostDownloadX (env : FetchEnv) (url : String) (body : Json)
    (options : Option RequestOpts) :
    Except JSException (Result DownloadResult FetchError) := do
  let responseResult ←
    safeRequestX env url (some (jsonBodyInit "POST" body options))
  match responseResult with
  | .err e => return .err e
  | .ok response =>
      return Result.tryPromise (downloadTry response) (downloadCatch url)

/-! The `errorWrapper` adapter (errorWrapper.ts). -/

/-- The `matchError` dispatch of `errorWrapper`: one formatted string per
variant of `FetchError`, chosen by the `_tag` discriminant. -/
def matchErrorMessage : FetchError → String
  | .apiError e => "API Error: " ++ toString e.status ++ " - " ++ e.statusText
  | .networkError _ _ m => "Network Error: " ++ m
  | .parseError _ m => "Parse Error: " ++ m

/-- `errorWrapper` (errorWrapper.ts 5-15): on a failure Result, format the
error and `throw new Error(String(message))` (modelled as `Except.error` of
an `Error` instance); on a success Result return the wrapped value. -/
def errorWrapper {α : Type} (result : Result α FetchError) :
    Except JSException α :=
  match result with
  | .err e => .error (.errorExn (matchErrorMessage e))
  | .ok v => .ok v

/-! Derived observations and concrete scenario inputs. -/

/-- The content-type the built request resolves to: `Headers.get` on the
headers object of the init (an absent headers field reads as empty). -/
def initContentType (init : RequestInit) : Option String :=
  headersGet (init.headers.getD []) "content-type"

/-- A 404 response with a JSON body, as in the spec's 404 scenario. -/
def resp404 : Response :=
  { status := 404, statusText := "Not Found", headers := [],
    jsonResult := .ok (Json.obj [("error", Json.str "not found")]),
    blobResult := .ok ⟨[]⟩ }

/-- An environment whose server always answers with `resp404`. -/
def env404 : FetchEnv := fun _ _ => .success resp404

/-- A 200 response whose body is valid JSON. -/
def resp200 : Response :=
  { status := 200, statusText := "OK", headers := [],
    jsonResult := .ok (Json.num 1), blobResult := .ok ⟨[7, 7]⟩ }

/-- An environment whose server always answers with `resp200`. -/
def env200 : FetchEnv := fun _ _ => .success resp200

/-- A 200 response whose body is not valid JSON: `json()` throws a
`SyntaxError`, as in the spec's `not-json` scenario. -/
def respBadJson : Response :=
  { status := 200, statusText := "OK", headers := [],
    jsonResult := .error (.syntaxError "Unexpected token"),
    blobResult := .ok ⟨[]⟩ }

/-- An environment whose server always answers with `respBadJson`. -/
def envBadJson : FetchEnv := fun _ _ => .success respBadJson

/-- An environment whose transport always fails: `fetch` rejects with the
`TypeError` browsers use for a refused connection. -/
def envRefused : FetchEnv := fun _ _ => .throws (.typeError "Failed to fetch")

/-- An `ApiError` value thrown by the environment itself (for example as the
reason of an aborted request). -/
def apiThrown : ApiErrorData := ApiError.make 418 "teapot" "http://x"

/-- An environment whose call rejects with an `ApiError` instance. -/
def envThrowsApi : FetchEnv := fun _ _ => .throws (.apiExn apiThrown)

/-- The `NetworkError` of the spec's adapter scenario: its `message` field is
"Network error fetching X: timeout". -/
def netErrX : FetchError := NetworkError.make "X" (.errorExn "timeout")

/-- Caller options that supply their own `Content-Type` header (same-cased
key as the wrapper's default). -/
def ctOverrideOpts : RequestOpts :=
  { headers := some [("Content-Type", "text/plain")] }

/-! Helper lemmas. -/

/-- The explicit-exception form of `safeRequest` never uses the exception
channel: the single `Result.tryPromise` catches everything. -/
theorem safeRequestX_eq (env : FetchEnv) (url : String)
    (options : Option RequestInit) :
    safeRequestX env url options = .ok (safeRequest env url options) := rfl

/-- The explicit-exception form of `safeFetch` never uses the exception
channel. -/
theorem safeFetchX_eq (env : FetchEnv) (url : String)
    (options : Option RequestInit) :
    safeFetchX env url options = .ok (safeFetch env url options) := by
  unfold safeFetchX safeFetch
  rw [safeRequestX_eq]
  cases safeRequest env url options <;> rfl

/-- The explicit-exception form of `safeDownload` never uses the exception
channel. -/
theorem safeDownloadX_eq (env : FetchEnv) (url : String)
    (options : Option RequestInit) :
    safeDownloadX env url options = .ok (safeDownload env url options) := by
  unfold safeDownloadX safeDownload
  rw [safeRequestX_eq]
  cases safeRequest env url options <;> rfl

/-- The explicit-exception form of `safePostDownload` never uses the
exception channel. -/
theorem safePostDownloadX_eq (env : FetchEnv) (url : String) (body : Json)
    (ropts : Option RequestOpts) :
    safePostDownloadX env url body ropts =
      .ok (safePostDownload env url body ropts) := by
  unfold safePostDownloadX safePostDownload
  rw [safeRequestX_eq]
  cases safeRequest env url (some (jsonBodyInit "POST" body ropts)) <;> rfl

/-- On a successful fetch, `safeRequest` checks only the status: ok status
wraps the response, non-ok status yields the `ApiError` built from it. -/
theorem safeRequest_of_success (env : FetchEnv) (url : String)
    (options : Option RequestInit) (r : Response)
    (h : env url options = .success r) :
    safeRequest env url options =
      if respOk r then .ok r
      else .err (.apiError (ApiError.make r.status r.statusText url)) := by
  unfold safeRequest reqTry
  rw [h]
  by_cases hok : respOk r <;> simp [hok, Result.tryPromise, reqCatch]

/-- A failure of `safeRequest` is propagated by `safeFetch` unchanged. -/
theorem safeFetch_err (env : FetchEnv) (url : String)
    (options : Option RequestInit) (e : FetchError)
    (h : safeRequest env url options = .err e) :
    safeFetch env url options = .err e := by
  unfold safeFetch
  rw [h]

/-- A failure of `safeRequest` is tagged `ApiError` or `NetworkError`;
`ParseError` is never produced by its `catch`. -/
theorem safeRequest_err_tag (env : FetchEnv) (url : String)
    (options : Option RequestInit) (e : FetchError)
    (h : safeRequest env url options = .err e) :
    e.tag = "ApiError" ∨ e.tag = "NetworkError" := by
  unfold safeRequest Result.tryPromise at h
  cases htry : reqTry env url options with
  | ok r => rw [htry] at h; cases h
  | error ex =>
      rw [htry] at h
      cases h
      cases ex <;> simp [reqCatch, NetworkError.make, FetchError.tag]

/-! Theorems for the claims. -/

/-- C2: for every input URL and options and every outcome of the underlying
HTTP call and body decoding, each of the nine functions of the fetch layer
returns a `Result` and never lets an exception escape to its caller: the
explicit-exception semantics of each function always equals `Except.ok` of
its pure `Result` semantics. -/
theorem c2_fetch_layer_never_throws (env : FetchEnv) (url : String)
    (options : Option RequestInit) (body : Json)
    (ropts : Option RequestOpts) (dopts : Option DeleteOpts)
    (uopts : Option UploadOpts) (formData : FormData) :
    safeRequestX env url options = .ok (safeRequest env url options)
    ∧ safeFetchX env url options = .ok (safeFetch env url options)
    ∧ safePostX env url body ropts = .ok (safePost env url body ropts)
    ∧ safePutX env url body ropts = .ok (safePut env url body ropts)
    ∧ safePatchX env url body ropts = .ok (safePatch env url body ropts)
    ∧ safeDeleteX env url dopts = .ok (safeDelete env url dopts)
    ∧ safePostUploadX env url formData uopts =
        .ok (safePostUpload env url formData uopts)
    ∧ safeDownloadX env url options = .ok (safeDownload env url options)
    ∧ safePostDownloadX env url body ropts =
        .ok (safePostDownload env url body ropts) :=
  ⟨safeRequestX_eq env url options, safeFetchX_eq env url options,
   safeFetchX_eq env url _, safeFetchX_eq env url _, safeFetchX_eq env url _,
   safeFetchX_eq env url _, safeFetchX_eq env url _,
   safeDownloadX_eq env url options, safePostDownloadX_eq env url body ropts⟩

/-- C3: a response with status outside [200, 299] makes `safeRequest` fail
with an `ApiError` whose `status` and `statusText` are the response's own
(and `safeFetch` propagates that very error); a response with status in
[200, 299] makes `safeRequest` succeed with the response handle. -/
theorem c3_status_classification (env : FetchEnv) (url : String)
    (options : Option RequestInit) (r : Response)
    (h : env url options = .success r) :
    (respOk r = false →
      safeRequest env url options =
        .err (.apiError (ApiError.make r.status r.statusText url))
      ∧ safeFetch env url options =
        .err (.apiError (ApiError.make r.status r.statusText url)))
    ∧ (respOk r = true → safeRequest env url options = .ok r) := by
  constructor
  · intro hbad
    have hreq := safeRequest_of_success env url options r h
    rw [hbad] at hreq
    simp only [Bool.false_eq_true, if_false] at hreq
    exact ⟨hreq, safeFetch_err env url options _ hreq⟩
  · intro hok
    have hreq := safeRequest_of_success env url options r h
    rw [hok] at hreq
    simpa using hreq

/-- C3 witness: the spec's 404 scenario, on a server answering 404 Not Found
with a JSON body. -/
theorem c3_witness :
    safeRequest env404 "https://api/x" none =
      .err (.apiError (ApiError.make 404 "Not Found" "https://api/x"))
    ∧ safeFetch env404 "https://api/x" none =
      .err (.apiError (ApiError.make 404 "Not Found" "https://api/x")) :=
  (c3_status_classification env404 "https://api/x" none resp404 rfl).1 rfl

/-- C4: on a 2xx response whose body decode throws a `SyntaxError` (the body
is not valid JSON), `safeFetch` fails with a `ParseError` while `safeRequest`
on the same response succeeds; on a 2xx response with a valid JSON body,
`safeFetch` succeeds with the decoded value. -/
theorem c4_parse_classification (env : FetchEnv) (url : String)
    (options : Option RequestInit) (r : Response)
    (h : env url options = .success r) (hok : respOk r = true) :
    (∀ m, r.jsonResult = .error (.syntaxError m) →
      safeFetch env url options = .err (ParseError.make (.syntaxError m))
      ∧ safeRequest env url options = .ok r)
    ∧ (∀ v, r.jsonResult = .ok v → safeFetch env url options = .ok v) := by
  have hreq : safeRequest env url options = .ok r := by
    have := safeRequest_of_success env url options r h
    rw [hok] at this
    simpa using this
  constructor
  · intro m hm
    refine ⟨?_, hreq⟩
    unfold safeFetch
    rw [hreq]
    show Result.tryPromise r.jsonResult (fetchCatch url) = _
    rw [hm]
    rfl
  · intro v hv
    unfold safeFetch
    rw [hreq]
    show Result.tryPromise r.jsonResult (fetchCatch url) = _
    rw [hv]
    rfl

/-- C4 witness: the spec's `not-json` scenario (HTTP 200, body not valid
JSON) and the valid-JSON success case, on concrete servers. -/
theorem c4_witness :
    (safeFetch envBadJson "https://api/y" none =
        .err (ParseError.make (.syntaxError "Unexpected token"))
      ∧ safeRequest envBadJson "https://api/y" none = .ok respBadJson)
    ∧ safeFetch env200 "https://api/z" none = .ok (Json.num 1) :=
  ⟨(c4_parse_classification envBadJson "https://api/y" none respBadJson
      rfl rfl).1 "Unexpected token" rfl,
   (c4_parse_classification env200 "https://api/z" none resp200
      rfl rfl).2 (Json.num 1) rfl⟩

/-- C5 counterexample: when the underlying call rejects with an instance of
this module's own `ApiError` class (reachable, e.g., as the reason of an
aborted request), `safeRequest`'s catch returns that `ApiError` as is, so the
failure is tagged `ApiError` and not `NetworkError` — refuting "for every
uncaught exception during the call the result is tagged NetworkError". -/
theorem c5_counterexample :
    safeRequest envThrowsApi "http://x" none =
      .err (.apiError apiThrown)
    ∧ errTag (safeRequest envThrowsApi "http://x" none) ≠
      some "NetworkError" :=
  ⟨rfl, by decide⟩

/-- C5 (amended): when the underlying HTTP call throws a value that is not an
instance of the module's `ApiError` class — in particular every transport
failure — `safeRequest` fails with `NetworkError{url, cause}`, tagged
`NetworkError` (so neither `ApiError` nor `ParseError`); a thrown `ApiError`
instance is instead returned as that `ApiError`. -/
theorem c5_amended_network_classification (env : FetchEnv) (url : String)
    (options : Option RequestInit) (e : JSException)
    (h : env url options = .throws e) (hna : ∀ a, e ≠ .apiExn a) :
    safeRequest env url options = .err (NetworkError.make url e)
    ∧ (NetworkError.make url e).tag = "NetworkError" := by
  refine ⟨?_, rfl⟩
  unfold safeRequest reqTry
  rw [h]
  show Result.err (reqCatch url e) = _
  cases e with
  | apiExn a => exact absurd rfl (hna a)
  | typeError m => rfl
  | syntaxError m => rfl
  | errorExn m => rfl
  | nonError s => rfl

/-- C5 witness: a refused connection (`fetch` rejects with a `TypeError`)
yields the `NetworkError` failure. -/
theorem c5_witness :
    safeRequest envRefused "https://down" none =
      .err (NetworkError.make "https://down" (.typeError "Failed to fetch"))
    ∧ (NetworkError.make "https://down"
        (.typeError "Failed to fetch")).tag = "NetworkError" :=
  c5_amended_network_classification envRefused "https://down" none
    (.typeError "Failed to fetch") rfl
    (fun _ h => JSException.noConfusion h)

/-- C6 counterexample: on a failure holding the `NetworkError` whose
`message` is "Network error fetching X: timeout", `errorWrapper` throws an
exception whose message is "Network Error: Network error fetching X:
timeout" — the variant prefix is prepended, so the thrown message is not
exactly the error's message string. -/
theorem c6_counterexample :
    errorWrapper (Result.err netErrX : Result Json FetchError) =
      .error (.errorExn
        "Network Error: Network error fetching X: timeout")
    ∧ "Network Error: Network error fetching X: timeout" ≠
      "Network error fetching X: timeout" :=
  ⟨rfl, by decide⟩

/-- C6 (amended): on a failure holding a `NetworkError` whose `message` field
is "Network error fetching X: timeout", `errorWrapper` throws an exception
whose message is that string prefixed with "Network Error: ", i.e. exactly
"Network Error: Network error fetching X: timeout". -/
theorem c6_amended_adapter_scenario (u : String) (c : JSException) :
    errorWrapper (Result.err (FetchError.networkError u c
        "Network error fetching X: timeout") : Result Json FetchError) =
      .error (.errorExn
        "Network Error: Network error fetching X: timeout") := rfl

/-- C7: `errorWrapper` dispatches on the failure's discriminant and throws
the per-variant formatted message — "API Error: {status} - {statusText}",
"Network Error: {message}", "Parse Error: {message}" — and returns the
wrapped value unchanged (throwing nothing) on a success. -/
theorem c7_adapter_dispatch (r : Result Json FetchError) :
    (∀ st stx u m,
      r = .err (.apiError ⟨st, stx, u, m⟩) →
      errorWrapper r = .error (.errorExn
        ("API Error: " ++ toString st ++ " - " ++ stx)))
    ∧ (∀ u c m, r = .err (.networkError u c m) →
      errorWrapper r = .error (.errorExn ("Network Error: " ++ m)))
    ∧ (∀ c m, r = .err (.parseError c m) →
      errorWrapper r = .error (.errorExn ("Parse Error: " ++ m)))
    ∧ (∀ v, r = .ok v → errorWrapper r = .ok v) := by
  refine ⟨?_, ?_, ?_, ?_⟩
  · intro st stx u m h; subst h; rfl
  · intro u c m h; subst h; rfl
  · intro c m h; subst h; rfl
  · intro v h; subst h; rfl

/-- C7 witness: the adapter on a concrete 404 `ApiError` failure and on a
concrete success. -/
theorem c7_witness :
    errorWrapper (Result.err
        (FetchError.apiError (ApiError.make 404 "Not Found" "u")) :
        Result Json FetchError) =
      .error (.errorExn "API Error: 404 - Not Found")
    ∧ errorWrapper (Result.ok (Json.num 1) : Result Json FetchError) =
      .ok (Json.num 1) :=
  ⟨(c7_adapter_dispatch _).1 404 "Not Found" "u" _ rfl,
   (c7_adapter_dispatch _).2.2.2 _ rfl⟩

/-- C10: `safePostUpload` issues a POST whose body is the given form data
and sets no headers at all (its options type has no headers field and the
built init's headers field is absent), unlike the JSON-body wrappers, whose
built init always carries a headers object. -/
theorem c10_upload_no_headers (formData : FormData)
    (options : Option UploadOpts) :
    (uploadInit formData options).method = some "POST"
    ∧ (uploadInit formData options).body = some (.form formData)
    ∧ (uploadInit formData options).headers = none
    ∧ (∀ env url, safePostUpload env url formData options =
        safeFetch env url (some (uploadInit formData options)))
    ∧ (∀ body ropts, (jsonBodyInit "POST" body ropts).headers ≠ none) :=
  ⟨rfl, rfl, rfl, fun _ _ => rfl,
   fun _ _ h => Option.noConfusion h⟩

/-- `safePostDownload` is `safeDownload` on the JSON-body POST init. -/
theorem safePostDownload_eq (env : FetchEnv) (url : String) (body : Json)
    (ropts : Option RequestOpts) :
    safePostDownload env url body ropts =
      safeDownload env url (some (jsonBodyInit "POST" body ropts)) := rfl

/-- A failure of `safeDownload` is tagged `ApiError` or `NetworkError`. -/
theorem safeDownload_err_tag (env : FetchEnv) (url : String)
    (options : Option RequestInit) (e : FetchError)
    (h : safeDownload env url options = .err e) :
    e.tag = "ApiError" ∨ e.tag = "NetworkError" := by
  unfold safeDownload at h
  cases hreq : safeRequest env url options with
  | err e2 =>
      rw [hreq] at h
      simp only [] at h
      cases h
      exact safeRequest_err_tag env url options e hreq
  | ok r =>
      rw [hreq] at h
      simp only [] at h
      cases hd : downloadTry r with
      | ok d => rw [hd] at h; simp [Result.tryPromise] at h
      | error ex =>
          rw [hd] at h
          simp only [Result.tryPromise] at h
          cases h
          right
          rfl

/-- Tags other than `ParseError` are not `ParseError`. -/
theorem tag_api_or_net_ne_parse (e : FetchError)
    (h : e.tag = "ApiError" ∨ e.tag = "NetworkError") :
    ¬ e.tag = "ParseError" := by
  rcases h with h | h <;> rw [h] <;> decide

/-- C9: every failure of `safeDownload` and `safePostDownload` is tagged
`ApiError` or `NetworkError` and never `ParseError`; a failure of the
underlying `safeRequest` is propagated by both wrappers unchanged, so those
failures carry exactly `safeRequest`'s classification. -/
theorem c9_download_error_taxonomy (env : FetchEnv) (url : String)
    (options : Option RequestInit) (body : Json)
    (ropts : Option RequestOpts) :
    (∀ e, safeDownload env url options = .err e →
      (e.tag = "ApiError" ∨ e.tag = "NetworkError") ∧ ¬ e.tag = "ParseError")
    ∧ (∀ e, safeRequest env url options = .err e →
      safeDownload env url options = .err e)
    ∧ (∀ e, safePostDownload env url body ropts = .err e →
      (e.tag = "ApiError" ∨ e.tag = "NetworkError") ∧ ¬ e.tag = "ParseError")
    ∧ (∀ e, safeRequest env url (some (jsonBodyInit "POST" body ropts)) =
        .err e → safePostDownload env url body ropts = .err e) := by
  refine ⟨?_, ?_, ?_, ?_⟩
  · intro e h
    have := safeDownload_err_tag env url options e h
    exact ⟨this, tag_api_or_net_ne_parse e this⟩
  · intro e h
    unfold safeDownload
    rw [h]
  · intro e h
    rw [safePostDownload_eq] at h
    have := safeDownload_err_tag env url _ e h
    exact ⟨this, tag_api_or_net_ne_parse e this⟩
  · intro e h
    rw [safePostDownload_eq]
    unfold safeDownload
    rw [h]

/-- C9 witness: on a server answering 404, the download wrapper fails with
the `ApiError` classification of `safeRequest`. -/
theorem c9_witness :
    (FetchError.tag (.apiError (ApiError.make 404 "Not Found" "u")) =
        "ApiError"
      ∨ FetchError.tag (.apiError (ApiError.make 404 "Not Found" "u")) =
        "NetworkError")
    ∧ ¬ FetchError.tag (.apiError (ApiError.make 404 "Not Found" "u")) =
        "ParseError" :=
  (c9_download_error_taxonomy env404 "u" none (Json.num 1) none).1
    (.apiError (ApiError.make 404 "Not Found" "u")) rfl

/-- A spread object never assigns a key no entry of it carries. -/
theorem lastVal_none (hs : List (String × String)) (k : String)
    (h : ∀ p ∈ hs, p.1 ≠ k) : lastVal hs k = none := by
  induction hs with
  | nil => rfl
  | cons p ps ih =>
      have hp : p.1 ≠ k := h p (List.mem_cons_self p ps)
      have hps : ∀ q ∈ ps, q.1 ≠ k :=
        fun q hq => h q (List.mem_cons_of_mem p hq)
      unfold lastVal
      rw [ih hps]
      simp [hp]

/-- When no caller header key is (case-insensitively) `content-type`, the
merged headers object of the JSON-body wrappers resolves `content-type` to
`application/json`. -/
theorem headersGet_jsonBody (hs : List (String × String))
    (h : ∀ p ∈ hs, lowerStr (Prod.fst p) ≠ "content-type") :
    headersGet (objSpread jsonCT hs) "content-type" =
      some "application/json" := by
  have hne : ∀ p ∈ hs, p.1 ≠ "Content-Type" := by
    intro p hp heq
    exact h p hp (by rw [heq]; rfl)
  have hfil : (hs.filter
      (fun q => jsonCT.all (fun p => !(p.1 == q.1)))).filter
        (fun p => lowerEq p.1 "content-type") = [] := by
    rw [List.filter_eq_nil_iff]
    intro q hq hcontra
    have hmem := List.mem_of_mem_filter hq
    have h2 : lowerStr q.1 = lowerStr "content-type" := by
      have h3 : (lowerStr q.1 == lowerStr "content-type") = true := hcontra
      exact eq_of_beq h3
    rw [show lowerStr "content-type" = "content-type" from rfl] at h2
    exact h q hmem h2
  unfold objSpread jsonCT
  rw [List.map_cons, List.map_nil]
  rw [lastVal_none hs "Content-Type" hne]
  unfold headersGet
  rw [List.cons_append, List.nil_append]
  rw [List.filter_cons_of_pos (by rfl)]
  show (match ("Content-Type", "application/json") ::
      (hs.filter (fun q => jsonCT.all (fun p => !(p.1 == q.1)))).filter
        (fun p => lowerEq p.1 "content-type") with
    | [] => none
    | q :: qs => some (String.intercalate ", " ((q :: qs).map Prod.snd))) =
    some "application/json"
  rw [hfil]
  rfl

/-- C1 counterexample: calling a JSON-body wrapper with caller options that
carry their own `Content-Type` key makes the issued request's content-type
`text/plain`, not `application/json` — the caller's entry is spread after the
wrapper's fixed entry and overrides it. -/
theorem c1_counterexample :
    initContentType
        (jsonBodyInit "POST" (Json.num 1) (some ctOverrideOpts)) =
      some "text/plain"
    ∧ (some "text/plain" : Option String) ≠ some "application/json" :=
  ⟨rfl, by decide⟩

/-- C1 (amended): every call to `safePost`, `safePut` or `safePatch` issues
a request whose body is `JSON.stringify` of the given body; its content-type
resolves to `application/json` provided the caller-supplied headers contain
no (case-insensitively) `content-type` key — a caller-supplied content-type
key instead overrides or combines with the wrapper's default. -/
theorem c1_json_wrappers (body : Json) (options : Option RequestOpts)
    (h : ∀ p ∈ optHeaders options,
      lowerStr (Prod.fst p) ≠ "content-type") :
    (∀ method, (jsonBodyInit method body options).body =
        some (.str (stringify body))
      ∧ initContentType (jsonBodyInit method body options) =
        some "application/json")
    ∧ (∀ env url,
        safePost env url body options =
          safeFetch env url (some (jsonBodyInit "POST" body options))
        ∧ safePut env url body options =
          safeFetch env url (some (jsonBodyInit "PUT" body options))
        ∧ safePatch env url body options =
          safeFetch env url (some (jsonBodyInit "PATCH" body options))) := by
  refine ⟨fun method => ⟨rfl, ?_⟩, fun env url => ⟨rfl, rfl, rfl⟩⟩
  show headersGet (objSpread jsonCT (optHeaders options)) "content-type" =
    some "application/json"
  exact headersGet_jsonBody _ h

/-- C1 witness: a POST with no caller options carries the JSON body and the
JSON content-type. -/
theorem c1_witness :
    (jsonBodyInit "POST" (Json.num 1) none).body =
      some (.str (stringify (Json.num 1)))
    ∧ initContentType (jsonBodyInit "POST" (Json.num 1) none) =
      some "application/json" :=
  (c1_json_wrappers (Json.num 1) none
    (by intro p hp; simp [optHeaders] at hp)).1 "POST"

/-- C10 witness: a concrete upload with empty form data and no options. -/
theorem c10_witness :
    (uploadInit (FormData.mk []) none).headers = none
    ∧ (uploadInit (FormData.mk []) none).method = some "POST" :=
  ⟨(c10_upload_no_headers (FormData.mk []) none).2.2.1,
   (c10_upload_no_headers (FormData.mk []) none).1⟩

/-- A run of characters all satisfying `p` is consumed whole. -/
theorem takeRun_all (p : Char → Bool) (s : List Char)
    (h : ∀ c ∈ s, p c = true) : takeRun p s = (s, []) := by
  induction s with
  | nil => rfl
  | cons c cs ih =>
      have hc := h c (List.mem_cons_self c cs)
      have hcs : ∀ d ∈ cs, p d = true :=
        fun d hd => h d (List.mem_cons_of_mem c hd)
      unfold takeRun
      simp [hc, ih hcs]

/-- The remainder of a run is empty or starts with a character of the input
that fails `p`. -/
theorem takeRun_snd (p : Char → Bool) (s : List Char) :
    (takeRun p s).2 = [] ∨
    ∃ c rest, (takeRun p s).2 = c :: rest ∧ p c = false ∧ c ∈ s := by
  induction s with
  | nil => left; rfl
  | cons c cs ih =>
      by_cases hc : p c
      · rcases ih with h0 | ⟨d, rest, hd, hpd, hmem⟩
        · left; simp [takeRun, hc, h0]
        · right
          exact ⟨d, rest, by simp [takeRun, hc, hd], hpd,
            List.mem_cons_of_mem c hmem⟩
      · right
        refine ⟨c, cs, by simp [takeRun, hc], ?_, List.mem_cons_self c cs⟩
        simpa using hc

/-- The lazy quoted part: when `t` contains neither the quote nor a newline,
the shortest closing occurrence of the quote is the one right after `t`. -/
theorem lazyClose_append (q : Char) (t rest : List Char)
    (h : ∀ c ∈ t, c ≠ q ∧ c ≠ nl) :
    lazyClose q (t ++ q :: rest) = some (t, rest) := by
  induction t with
  | nil => simp [lazyClose]
  | cons c cs ih =>
      have hc := h c (List.mem_cons_self c cs)
      have hcs : ∀ d ∈ cs, d ≠ q ∧ d ≠ nl :=
        fun d hd => h d (List.mem_cons_of_mem c hd)
      rw [List.cons_append]
      unfold lazyClose
      simp [hc.1, hc.2, ih hcs]

/-- Removing the quote characters of a quoted capture leaves exactly the
quote-stripped token: the two delimiting quotes go, and so does every quote
character inside the token. -/
theorem stripQuotes_quoted (t : List Char) :
    stripQuotes (dq :: (t ++ dq :: [])) = stripQuotes t := by
  unfold stripQuotes
  rw [List.filter_cons_of_neg (by decide), List.filter_append]
  rw [show List.filter (fun c => !(isQuoteCh c)) [dq] = [] from rfl]
  rw [List.append_nil]

/-- Group 1 on a quoted token: the capture spans both quotes. -/
theorem captureGroup_quoted (t rest : List Char)
    (h : ∀ c ∈ t, c ≠ dq ∧ c ≠ nl) :
    captureGroup (dq :: (t ++ dq :: rest)) = dq :: (t ++ [dq]) := by
  simp only [captureGroup]
  rw [if_pos (show isQuoteCh dq = true by decide)]
  rw [lazyClose_append dq t rest h]

/-- Group 1 on an unquoted token that the greedy class consumes whole: only
the first character must not be a quote (quote characters later in the token
are consumed by `[^;\n]*`). -/
theorem captureGroup_unquoted (c : Char) (cs : List Char)
    (h1 : isQuoteCh c = false)
    (h2 : ∀ d ∈ c :: cs, notIn2 d = true) :
    captureGroup (c :: cs) = c :: cs := by
  simp only [captureGroup]
  rw [if_neg (by rw [h1]; exact Bool.false_ne_true)]
  rw [takeRun_all notIn2 (c :: cs) h2]

/-- Matching at the very start of `filename=...`: the run before `=` is
empty, the `=` is consumed, and group 1 always succeeds. -/
theorem findFilenameMatch_start (s : List Char) :
    findFilenameMatch ('f' :: 'i' :: 'l' :: 'e' :: 'n' :: 'a' :: 'm' ::
      'e' :: '=' :: s) = some (captureGroup s) := rfl

/-- A string with no `=` character cannot match the filename pattern: the
mandatory `=` after the greedy `[^;=\n]*` run is never found. -/
theorem findFilenameMatch_no_eq (s : List Char)
    (h : ∀ c ∈ s, c ≠ '=') : findFilenameMatch s = none := by
  induction s with
  | nil => rfl
  | cons c cs ih =>
      have hcs : ∀ d ∈ cs, d ≠ '=' :=
        fun d hd => h d (List.mem_cons_of_mem c hd)
      simp only [findFilenameMatch]
      by_cases hpre : ((c :: cs).take 8 == filenameLit) = true
      · have hdrop : ∀ d ∈ (c :: cs).drop 8, d ≠ '=' :=
          fun d hd => h d (List.mem_of_mem_drop hd)
        have hmaf : matchAfterFilename ((c :: cs).drop 8) = none := by
          unfold matchAfterFilename
          rcases takeRun_snd notIn1 ((c :: cs).drop 8) with
            h0 | ⟨d, rest, hd, hpd, hmem⟩
          · rw [h0]
          · rw [hd]
            have hdne : d ≠ '=' := hdrop d hmem
            simp [hdne]
        rw [if_pos hpre, hmaf]
        exact ih hcs
      · rw [if_neg hpre]
        exact ih hcs

/-- C8 counterexample: `match[1].replace(/['"]/g, "")` deletes every quote
character, not only the surrounding ones: for the header
`attachment; filename="it's.csv"` the code returns `its.csv`, while the
token following `filename=` with only its surrounding quotes stripped would
be `it's.csv` — refuting the claim's universal "with surrounding quotes
stripped". -/
theorem c8_counterexample :
    extractFilename (some (String.mk (filenameLit ++ '=' :: dq ::
        (("it".data ++ sq :: "s.csv".data) ++ [dq])))) =
      some "its.csv"
    ∧ (some "its.csv" : Option String) ≠
      some (String.mk ("it".data ++ sq :: "s.csv".data)) :=
  ⟨rfl, by decide⟩

/-- C8 (amended): filename extraction from the `Content-Disposition` header:
the extracted filename is the token following `filename=` (quoted or
unquoted) with every quote character removed — in particular its surrounding
quotes; the claim's concrete example yields `report.csv`; the result is null
whenever the header is absent or the pattern does not match (in particular
for any header without a `=` character). -/
theorem c8_filename_extraction (t : List Char)
    (hq : ∀ c ∈ t, c ≠ dq ∧ c ≠ nl) :
    extractFilename (some "attachment; filename=\"report.csv\"") =
      some "report.csv"
    ∧ extractFilename
        (some (String.mk (filenameLit ++ '=' :: dq :: (t ++ [dq])))) =
      some (String.mk (stripQuotes t))
    ∧ (∀ c cs, isQuoteCh c = false → (∀ d ∈ c :: cs, notIn2 d = true) →
        extractFilename
            (some (String.mk (filenameLit ++ '=' :: c :: cs))) =
          some (String.mk (stripQuotes (c :: cs))))
    ∧ extractFilename none = none
    ∧ (∀ cd : String, findFilenameMatch cd.data = none →
        extractFilename (some cd) = none)
    ∧ (∀ cd : String, (∀ c ∈ cd.data, c ≠ '=') →
        extractFilename (some cd) = none) := by
  refine ⟨rfl, ?_, ?_, rfl, ?_, ?_⟩
  · show (match findFilenameMatch
        (filenameLit ++ '=' :: dq :: (t ++ [dq])) with
      | none => none
      | some g =>
          if g.isEmpty then none
          else some (String.mk (stripQuotes g))) =
      some (String.mk (stripQuotes t))
    rw [show filenameLit ++ '=' :: dq :: (t ++ [dq]) =
      'f' :: 'i' :: 'l' :: 'e' :: 'n' :: 'a' :: 'm' :: 'e' :: '=' ::
        (dq :: (t ++ [dq])) from rfl]
    rw [findFilenameMatch_start]
    rw [show t ++ [dq] = t ++ dq :: [] from rfl]
    rw [captureGroup_quoted t [] hq]
    show some (String.mk (stripQuotes (dq :: (t ++ dq :: [])))) =
      some (String.mk (stripQuotes t))
    rw [stripQuotes_quoted]
  · intro c cs h1 h2
    show (match findFilenameMatch (filenameLit ++ '=' :: c :: cs) with
      | none => none
      | some g =>
          if g.isEmpty then none
          else some (String.mk (stripQuotes g))) =
      some (String.mk (stripQuotes (c :: cs)))
    rw [show filenameLit ++ '=' :: c :: cs =
      'f' :: 'i' :: 'l' :: 'e' :: 'n' :: 'a' :: 'm' :: 'e' :: '=' ::
        (c :: cs) from rfl]
    rw [findFilenameMatch_start]
    rw [captureGroup_unquoted c cs h1 h2]
    show (if (c :: cs).isEmpty then none
      else some (String.mk (stripQuotes (c :: cs)))) =
      some (String.mk (stripQuotes (c :: cs)))
    rw [show (c :: cs).isEmpty = false from rfl, if_neg (by simp)]
  · intro cd hnomatch
    show (match findFilenameMatch cd.data with
      | none => none
      | some g =>
          if g.isEmpty then none
          else some (String.mk (stripQuotes g))) = none
    rw [hnomatch]
  · intro cd hcd
    show (match findFilenameMatch cd.data with
      | none => none
      | some g =>
          if g.isEmpty then none
          else some (String.mk (stripQuotes g))) = none
    rw [findFilenameMatch_no_eq cd.data hcd]

/-- C8 witness: the quoted token `it's.csv` (a quote character inside the
token), whose extraction removes the inner quote as well. -/
theorem c8_witness :
    extractFilename (some (String.mk (filenameLit ++ '=' :: dq ::
        (("it".data ++ sq :: "s.csv".data) ++ [dq])))) =
      some (String.mk (stripQuotes ("it".data ++ sq :: "s.csv".data))) :=
  (c8_filename_extraction ("it".data ++ sq :: "s.csv".data)
    (by decide)).2.1

end SafeApi
